import Mathlib

/-
  Verification development for the task-assignment bot in src/main.py.

  The embedding below translates the persistent store (the JSON file
  tasks.json, in particular its "users" object), the in-memory assignment
  flow state (ASSIGN_STATE), and the handlers add_task, get_active_tasks,
  is_chat_member, on_user_shared, on_task_text, send_daily_reminders and
  the cron trigger of scheduler_runner into pure Lean functions with
  explicit state passing.  Outbound bot.send_message calls are modelled as
  a list of attempted sends; deliverability of a direct message is an
  oracle (Int to Bool), matching the try/except wrappers in the source
  that swallow delivery failures.  The one send that is NOT wrapped in
  try/except in on_task_text (the ephemeral group confirmation, line 381)
  is modelled by a Boolean chatOk: when it raises, the handler aborts and
  the code after it (including the ASSIGN_STATE.pop on line 400) does not
  run.  Wall-clock time is passed explicitly: ts is the timestamp taken at
  insert, weekday is the weekday number (Monday = 0 .. Sunday = 6, the
  Python datetime.weekday convention) of the current time in the
  configured zone (Europe/Stockholm).
-/

namespace USSBot

/-- A stored task row: the typed view of the JSON object appended by
add_task (src/main.py lines 237-243).  The JSON keys are "text", "by",
"chat", "ts", "done"; the "by" key is rendered here by the field
by_user_id, after the parameter name of add_task. -/
structure Task where
  text : String
  by_user_id : Int
  chat : Int
  ts : Int
  done : Bool
deriving DecidableEq, Repr

/-- The "users" object of the store: user id mapped to the task list, as
an association list (a JSON object has uniquely keyed entries; insertion
order is preserved, as for a Python dict). -/
abbrev Users := List (Int × List Task)

/-- Association-list lookup for the "users" object. -/
def lookupUser (users : Users) (uid : Int) : Option (List Task) :=
  match users with
  | [] => none
  | (k, v) :: rest => if k = uid then some v else lookupUser rest uid

/-- Append a task to the entry of the given user (the dict is keyed
uniquely, so at most one entry matches). -/
def updateUser (users : Users) (uid : Int) (t : Task) : Users :=
  match users with
  | [] => []
  | (k, v) :: rest =>
    if k = uid then (k, v ++ [t]) :: updateUser rest uid t
    else (k, v) :: updateUser rest uid t

/-- add_task (src/main.py lines 235-244): setdefault the entry of the
assignee, then append the new row with done = False.  The timestamp ts of
datetime.now is passed explicitly. -/
def add_task (users : Users) (assignee_id : Int) (text : String)
    (by_user_id chat_id ts : Int) : Users :=
  let task : Task := ⟨text, by_user_id, chat_id, ts, false⟩
  match lookupUser users assignee_id with
  | some _ => updateUser users assignee_id task
  | none => users ++ [(assignee_id, [task])]

/-- get_active_tasks (src/main.py lines 247-249): the tasks of the user
(defaulting to the empty list) filtered to those not done, in stored
order. -/
def get_active_tasks (users : Users) (user_id : Int) : List Task :=
  ((lookupUser users user_id).getD []).filter (fun t => !t.done)

/-- Per-user assignment flow record, ASSIGN_STATE[user] (src/main.py
lines 109-110). -/
structure FlowState where
  chat_id : Int
  assignee_id : Option Int
deriving DecidableEq, Repr

/-- The in-memory ASSIGN_STATE dict, keyed by user id. -/
abbrev AssignState := Int → Option FlowState

/-- The kinds of messages the modelled handlers send, with the payload
data interpolated into the message text in the source. -/
inductive MsgKind where
  /-- The new-task notice DMed to the assignee (line 372). -/
  | newTaskNotice (text : String)
  /-- The success confirmation DMed to the assigner (line 376),
  referencing the assignee id and the task text. -/
  | assignConfirm (assignee : Int) (text : String)
  /-- The rejection DMed to the assigner when the selected user is not a
  member of the chat (line 333). -/
  | memberRejection
  /-- The out-of-context reply when a user share arrives with no flow
  state (line 321). -/
  | outOfContext
  /-- The ForceReply prompt asking for the task text (line 343). -/
  | textPrompt
  /-- The ephemeral confirmation posted to the group chat (line 381). -/
  | ephemeralDone
  /-- The keyboard-removing blank message to the group chat (line 395). -/
  | keyboardRemove
deriving DecidableEq, Repr

/-- An attempted outbound send: either a direct message to a user id or a
message to a chat id. -/
inductive Send where
  | dm (uid : Int) (kind : MsgKind)
  | group (chat_id : Int) (kind : MsgKind)
deriving DecidableEq, Repr

/-- The direct messages among the attempted sends that actually reach
their target, given the deliverability oracle dmOk (a send wrapped in
try/except is attempted once and its failure swallowed). -/
def dmDelivered (dmOk : Int → Bool) (sends : List Send) : List Send :=
  sends.filter (fun s =>
    match s with
    | .dm u _ => dmOk u
    | .group _ _ => false)

/-- The sends among the given list that are direct messages to the given
user. -/
def dmSendsTo (sends : List Send) (uid : Int) : List Send :=
  sends.filter (fun s =>
    match s with
    | .dm u _ => u == uid
    | .group _ _ => false)

/-- Telegram chat-member statuses as returned by get_chat_member. -/
inductive MemberStatus where
  | creator
  | administrator
  | member
  | restricted
  | leftChat
  | kicked
deriving DecidableEq, Repr

/-- is_chat_member (src/main.py lines 196-202): the get_chat_member call
either returns a status or raises; on any exception the check returns
False, otherwise it tests membership of the status in
{creator, administrator, member}. -/
def is_chat_member (r : Except Unit MemberStatus) : Bool :=
  match r with
  | .ok s => s == .creator || s == .administrator || s == .member
  | .error _ => false

/-- Result of running one message handler: the store, the flow-state
dict, and the attempted outbound sends in order. -/
structure HandlerResult where
  users : Users
  assign : AssignState
  sends : List Send

/-- on_user_shared (src/main.py lines 316-350): with no flow state the
share is answered out of context in the originating chat; with flow state
the selected user is membership-checked against the flow chat (result of
the get_chat_member call passed as lookup) and on failure the assigner is
DMed a rejection (wrapped in try/except) and the state is left untouched;
on success assignee_id is recorded in the state and the ForceReply text
prompt is posted in the originating chat. -/
def on_user_shared (users : Users) (st : AssignState) (fromUser sharedUser : Int)
    (eventChat : Int) (lookup : Except Unit MemberStatus) : HandlerResult :=
  match st fromUser with
  | none => ⟨users, st, [Send.group eventChat .outOfContext]⟩
  | some fs =>
    if is_chat_member lookup then
      ⟨users,
       fun u => if u = fromUser then some { fs with assignee_id := some sharedUser } else st u,
       [Send.group eventChat .textPrompt]⟩
    else
      ⟨users, st, [Send.dm fromUser .memberRejection]⟩

/-- The strip of m.text on src/main.py line 366: remove leading and
trailing whitespace.  Defined by structural recursion over the character
list so that it evaluates inside the kernel. -/
def pyStrip (s : String) : String :=
  ⟨((s.data.dropWhile Char.isWhitespace).reverse.dropWhile
      Char.isWhitespace).reverse⟩

/-- on_task_text (src/main.py lines 354-400): with no flow state, or a
flow state without a selected assignee, the reply is only deleted;
otherwise the text is stripped, the task is added, the assignee and the
assigner are DMed (each in its own try/except, lines 371-378), and the
ephemeral group confirmation is sent WITHOUT a try/except (line 381).
chatOk says whether that unprotected send succeeds: when it raises, the
handler aborts there, so the keyboard-removing send and the
ASSIGN_STATE.pop of line 400 do not run and the flow state survives. -/
def on_task_text (users : Users) (st : AssignState) (fromUser : Int)
    (mtext : String) (ts : Int) (chatOk : Bool) : HandlerResult :=
  match st fromUser with
  | none => ⟨users, st, []⟩
  | some fs =>
    match fs.assignee_id with
    | none => ⟨users, st, []⟩
    | some assignee =>
      let text := pyStrip mtext
      let users' := add_task users assignee text fromUser fs.chat_id ts
      let dms : List Send :=
        [Send.dm assignee (.newTaskNotice text),
         Send.dm fromUser (.assignConfirm assignee text)]
      if chatOk then
        ⟨users', fun u => if u = fromUser then none else st u,
         dms ++ [Send.group fs.chat_id .ephemeralDone,
                 Send.group fs.chat_id .keyboardRemove]⟩
      else
        ⟨users', st, dms ++ [Send.group fs.chat_id .ephemeralDone]⟩

/-- The loop body of send_daily_reminders (src/main.py lines 411-424)
over the list of user-id keys of the "users" object: the first component
collects the digests whose send is attempted (one per user with a
non-empty active list, carrying the texts of exactly the active
tasks in stored order), the second those actually delivered under the
dmOk oracle (the send is wrapped in try/except, so a failure is swallowed
and the loop continues with the next user). -/
def reminderLoop (dmOk : Int → Bool) (users : Users) :
    List Int → List (Int × List String) × List (Int × List String)
  | [] => ([], [])
  | uid :: rest =>
    let tasks := get_active_tasks users uid
    let result := reminderLoop dmOk users rest
    if tasks.isEmpty then result
    else
      let digest := tasks.map Task.text
      if dmOk uid then ((uid, digest) :: result.1, (uid, digest) :: result.2)
      else ((uid, digest) :: result.1, result.2)

/-- send_daily_reminders (src/main.py lines 405-424): if the weekday of
now in the configured zone is Saturday (5) or Sunday (6) the run returns
immediately with no sends; otherwise the loop runs over the keys of the
"users" object.  Returns (attempted digests, delivered digests). -/
def send_daily_reminders (dmOk : Int → Bool) (users : Users) (weekday : Nat) :
    List (Int × List String) × List (Int × List String) :=
  if 5 ≤ weekday then ([], [])
  else reminderLoop dmOk users (users.map Prod.fst)

/-- The cron trigger installed by scheduler_runner (src/main.py lines
427-432): CronTrigger with day_of_week mon-fri, hour 10, minute 0, in the
configured zone.  Fires exactly at local times whose weekday is Monday
(0) through Friday (4) at 10:00. -/
def cronFires (weekday hour minute : Nat) : Bool :=
  weekday < 5 && hour == 10 && minute == 0

/-- Inbound events of the assignment flow, as delivered by the chat
transport to the three handlers that touch ASSIGN_STATE. -/
inductive Event where
  /-- The assign menu callback cb_assign on its success path (src/main.py
  line 271): overwrites the flow state of the user with the resolved
  target chat and no assignee yet. -/
  | assignClick (user chat : Int)
  /-- A user_shared message: the sharing user, the shared (candidate
  assignee) user, the chat the share arrived in, and the outcome of the
  get_chat_member call. -/
  | userShared (user shared chat : Int) (lookup : Except Unit MemberStatus)
  /-- A ForceReply answer carrying the task text, with the timestamp at
  insert and the outcome of the unprotected group confirmation send. -/
  | taskText (user : Int) (text : String) (ts : Int) (chatOk : Bool)

/-- Global state of the modelled system: the persisted "users" object and
the in-memory ASSIGN_STATE. -/
structure SysState where
  users : Users
  assign : AssignState

/-- One dispatcher step: route the event to its handler. -/
def stepEvent (s : SysState) (e : Event) : SysState :=
  match e with
  | .assignClick u c =>
    { s with assign := fun x => if x = u then some ⟨c, none⟩ else s.assign x }
  | .userShared u sh c lk =>
    let r := on_user_shared s.users s.assign u sh c lk
    ⟨r.users, r.assign⟩
  | .taskText u txt ts ok =>
    let r := on_task_text s.users s.assign u txt ts ok
    ⟨r.users, r.assign⟩

/-- Run a list of events through the dispatcher. -/
def runEvents (s : SysState) : List Event → SysState
  | [] => s
  | e :: es => runEvents (stepEvent s e) es

/-- The initial state: empty store, empty ASSIGN_STATE. -/
def initState : SysState := ⟨[], fun _ => none⟩

/-- The trace contains a user-shared selection of the given assignee that
passed the membership check. -/
def approvedInTrace (es : List Event) (a : Int) : Prop :=
  ∃ u c lk, Event.userShared u a c lk ∈ es ∧ is_chat_member lk = true

/-- Modelled from the spec: the Task entity of section 3 for the
mark-done contract of section 4.1.  The repository source under src has
no mark_done operation (no handler closes a task), so the store row is
modelled from the fields the spec names: a store-assigned id, the
responsible assignee, the text, and the is_done flag. -/
structure SpecTask where
  id : Nat
  assignee_id : Int
  text : String
  is_done : Bool
deriving DecidableEq, Repr

/-- Modelled from the spec: mark_done(task_id) of section 4.1, absent
from the source under src.  Returns true iff a row with the id exists
(open or already done, idempotently), setting is_done of every such row
to true; returns false and leaves the store unchanged when no row has the
id.  Total by construction: a missing id is a normal false outcome, never
an exception. -/
def mark_done (store : List SpecTask) (task_id : Nat) :
    List SpecTask × Bool :=
  if store.any (fun t => t.id == task_id) then
    (store.map (fun t => if t.id == task_id then { t with is_done := true } else t), true)
  else (store, false)

/-- A JSON scalar value, for the raw record view of a stored task. -/
inductive JVal where
  | str (v : String)
  | int (v : Int)
  | bool (v : Bool)
deriving DecidableEq, Repr

/-- The raw JSON object literal appended by add_task (src/main.py lines
237-243), field for field: keys "text", "by", "chat", "ts", "done" and
nothing else. -/
def task_record (text : String) (by_user_id chat_id ts : Int) :
    List (String × JVal) :=
  [("text", .str text), ("by", .int by_user_id), ("chat", .int chat_id),
   ("ts", .int ts), ("done", .bool false)]

/-- Key lookup in a JSON object. -/
def lookupKey (record : List (String × JVal)) (key : String) : Option JVal :=
  match record with
  | [] => none
  | (k, v) :: rest => if k = key then some v else lookupKey rest key

/-- Rendering of the ordering claimed by the spec for list_open:
newest-first, i.e. every element is at least as recently created as the
one after it.  The stored rows carry no id, so recency is read off the
insert timestamp ts. -/
def tsSortedDesc : List Task → Bool
  | [] => true
  | [_] => true
  | a :: b :: rest => (b.ts ≤ a.ts) && tsSortedDesc (b :: rest)

/-- Proof-internal description of the digest attempted for one user. -/
def digestOf (users : Users) (uid : Int) : Option (Int × List String) :=
  let tasks := get_active_tasks users uid
  if tasks.isEmpty then none else some (uid, tasks.map Task.text)

/-! ### Store lemmas -/

theorem lookupUser_updateUser_self {users : Users} {uid : Int} {v : List Task}
    (t : Task) (h : lookupUser users uid = some v) :
    lookupUser (updateUser users uid t) uid = some (v ++ [t]) := by
  induction users with
  | nil => simp [lookupUser] at h
  | cons p rest ih =>
    obtain ⟨k, w⟩ := p
    by_cases hk : k = uid
    · subst hk
      simp [lookupUser] at h
      simp [updateUser, lookupUser, h]
    · simp [lookupUser, hk] at h
      simp [updateUser, lookupUser, hk, ih h]

theorem lookupUser_updateUser_other {users : Users} {uid x : Int}
    (t : Task) (h : x ≠ uid) :
    lookupUser (updateUser users uid t) x = lookupUser users x := by
  induction users with
  | nil => simp [updateUser]
  | cons p rest ih =>
    obtain ⟨k, w⟩ := p
    by_cases hk : k = uid
    · have hux : ¬ (uid = x) := fun he => h he.symm
      have hkx : ¬ (k = x) := by rw [hk]; exact hux
      simp [updateUser, lookupUser, hk, hkx, hux, ih]
    · simp only [updateUser, lookupUser, if_neg hk, ih]

theorem lookupUser_append_self {users : Users} {a : Int} (l : List Task)
    (h : lookupUser users a = none) :
    lookupUser (users ++ [(a, l)]) a = some l := by
  induction users with
  | nil => simp [lookupUser]
  | cons p rest ih =>
    obtain ⟨k, w⟩ := p
    by_cases hk : k = a
    · subst hk; simp [lookupUser] at h
    · simp [lookupUser, hk] at h
      simp [lookupUser, hk, ih h]

theorem lookupUser_append_other {users : Users} {a x : Int} (l : List Task)
    (h : x ≠ a) :
    lookupUser (users ++ [(a, l)]) x = lookupUser users x := by
  induction users with
  | nil =>
    have : a ≠ x := fun he => h he.symm
    simp [lookupUser, this]
  | cons p rest ih =>
    obtain ⟨k, w⟩ := p
    by_cases hx : k = x
    · simp [lookupUser, hx]
    · simp [lookupUser, hx, ih]

theorem lookupUser_add_task_self (users : Users) (a : Int) (txt : String)
    (b c ts : Int) :
    lookupUser (add_task users a txt b c ts) a =
      some (((lookupUser users a).getD []) ++ [⟨txt, b, c, ts, false⟩]) := by
  unfold add_task
  cases h : lookupUser users a with
  | none => simp [h, lookupUser_append_self]
  | some v => simp [h, lookupUser_updateUser_self _ h]

theorem lookupUser_add_task_other (users : Users) {a x : Int} (txt : String)
    (b c ts : Int) (h : x ≠ a) :
    lookupUser (add_task users a txt b c ts) x = lookupUser users x := by
  unfold add_task
  cases hl : lookupUser users a with
  | none => simp [lookupUser_append_other _ h]
  | some v => simp [lookupUser_updateUser_other _ h]

theorem get_active_tasks_add_task_self (users : Users) (a : Int) (txt : String)
    (b c ts : Int) :
    get_active_tasks (add_task users a txt b c ts) a =
      get_active_tasks users a ++ [⟨txt, b, c, ts, false⟩] := by
  unfold get_active_tasks
  rw [lookupUser_add_task_self]
  simp [List.filter_append]

theorem get_active_tasks_add_task_other (users : Users) {a x : Int}
    (txt : String) (b c ts : Int) (h : x ≠ a) :
    get_active_tasks (add_task users a txt b c ts) x = get_active_tasks users x := by
  unfold get_active_tasks
  rw [lookupUser_add_task_other _ _ _ _ _ h]

theorem get_active_tasks_nil (uid : Int) : get_active_tasks [] uid = [] := by
  simp [get_active_tasks, lookupUser]

/-! ### Reminder lemmas -/

theorem reminderLoop_fst (dmOk : Int → Bool) (users : Users) (ks : List Int) :
    (reminderLoop dmOk users ks).1 = ks.filterMap (digestOf users) := by
  induction ks with
  | nil => simp [reminderLoop]
  | cons uid rest ih =>
    simp only [reminderLoop, digestOf, List.filterMap_cons]
    by_cases he : (get_active_tasks users uid).isEmpty
    · simp [he, ih]
    · by_cases hd : dmOk uid <;> simp [he, hd, ih, digestOf]

theorem reminderLoop_snd (dmOk : Int → Bool) (users : Users) (ks : List Int) :
    (reminderLoop dmOk users ks).2 =
      (reminderLoop dmOk users ks).1.filter (fun p => dmOk p.1) := by
  induction ks with
  | nil => simp [reminderLoop]
  | cons uid rest ih =>
    simp only [reminderLoop]
    by_cases he : (get_active_tasks users uid).isEmpty
    · simp [he, ih]
    · by_cases hd : dmOk uid <;> simp [he, hd, ih, List.filter_cons]

theorem filterMap_digestOf_keys (users : Users) (ks : List Int) :
    (ks.filterMap (digestOf users)).map Prod.fst =
      ks.filter (fun uid => !(get_active_tasks users uid).isEmpty) := by
  induction ks with
  | nil => simp
  | cons uid rest ih =>
    simp only [List.filterMap_cons, List.filter_cons]
    by_cases he : (get_active_tasks users uid).isEmpty
    · simp [digestOf, he, ih]
    · simp [digestOf, he, ih]

theorem count_nodup (ks : List Int) (uid : Int) (hnd : ks.Nodup) :
    ks.count uid = if uid ∈ ks then 1 else 0 := by
  induction ks with
  | nil => simp
  | cons k rest ih =>
    rw [List.nodup_cons] at hnd
    by_cases hk : k = uid
    · subst hk
      have h0 : rest.count k = 0 := by
        rw [ih hnd.2, if_neg hnd.1]
      simp [List.count_cons, h0]
    · have hne : ¬ (uid = k) := fun he => hk he.symm
      simp [List.count_cons, hk, hne, ih hnd.2]

theorem mem_filterMap_digestOf {users : Users} {ks : List Int}
    {p : Int × List String} (h : p ∈ ks.filterMap (digestOf users)) :
    p.2 = (get_active_tasks users p.1).map Task.text ∧
      get_active_tasks users p.1 ≠ [] := by
  rw [List.mem_filterMap] at h
  obtain ⟨uid, _, hf⟩ := h
  unfold digestOf at hf
  simp only [] at hf
  split at hf
  · exact Option.noConfusion hf
  · rename_i he
    rw [Option.some_inj] at hf
    subst hf
    exact ⟨rfl, by simpa [List.isEmpty_iff] using he⟩

/-! ### Trace lemmas -/

/-- State predicate: every assignee recorded in the flow state, and every
user owning an entry in the store, satisfies A. -/
def StateApproved (A : Int → Prop) (s : SysState) : Prop :=
  (∀ u fs a, s.assign u = some fs → fs.assignee_id = some a → A a) ∧
  (∀ a l, lookupUser s.users a = some l → A a)

theorem stepEvent_approved (A : Int → Prop) (s : SysState) (e : Event)
    (hs : StateApproved A s)
    (he : ∀ u sh c lk, e = .userShared u sh c lk → is_chat_member lk = true → A sh) :
    StateApproved A (stepEvent s e) := by
  obtain ⟨hassign, husers⟩ := hs
  cases e with
  | assignClick u c =>
    refine ⟨?_, husers⟩
    intro x fs a hx ha
    simp only [stepEvent] at hx
    by_cases hxu : x = u
    · rw [if_pos hxu, Option.some_inj] at hx
      rw [← hx] at ha
      exact Option.noConfusion ha
    · rw [if_neg hxu] at hx
      exact hassign x fs a hx ha
  | userShared u sh c lk =>
    cases hsu : s.assign u with
    | none =>
      simp only [stepEvent, on_user_shared, hsu]
      exact ⟨hassign, husers⟩
    | some fs0 =>
      by_cases hmem : is_chat_member lk
      · simp only [stepEvent, on_user_shared, hsu, if_pos hmem]
        refine ⟨?_, husers⟩
        intro x fs a hx ha
        dsimp only at hx
        by_cases hxu : x = u
        · rw [if_pos hxu, Option.some_inj] at hx
          rw [← hx] at ha
          simp only [Option.some_inj] at ha
          rw [← ha]
          exact he u sh c lk rfl hmem
        · rw [if_neg hxu] at hx
          exact hassign x fs a hx ha
      · simp only [stepEvent, on_user_shared, hsu, if_neg hmem]
        exact ⟨hassign, husers⟩
  | taskText u txt ts ok =>
    cases hsu : s.assign u with
    | none =>
      simp only [stepEvent, on_task_text, hsu]
      exact ⟨hassign, husers⟩
    | some fs0 =>
      cases hfa : fs0.assignee_id with
      | none =>
        simp only [stepEvent, on_task_text, hsu, hfa]
        exact ⟨hassign, husers⟩
      | some a0 =>
        have husers' : ∀ a l,
            lookupUser (add_task s.users a0 (pyStrip txt) u fs0.chat_id ts) a = some l → A a := by
          intro a l hl
          by_cases hax : a = a0
          · rw [hax]; exact hassign u fs0 a0 hsu hfa
          · rw [lookupUser_add_task_other _ _ _ _ _ hax] at hl
            exact husers a l hl
        cases ok with
        | true =>
          simp only [stepEvent, on_task_text, hsu, hfa, if_pos]
          refine ⟨?_, husers'⟩
          intro x fs a hx ha
          dsimp only at hx
          by_cases hxu : x = u
          · rw [if_pos hxu] at hx
            exact Option.noConfusion hx
          · rw [if_neg hxu] at hx
            exact hassign x fs a hx ha
        | false =>
          simp only [stepEvent, on_task_text, hsu, hfa]
          exact ⟨hassign, husers'⟩

theorem runEvents_approved (A : Int → Prop) :
    ∀ (es : List Event) (s : SysState), StateApproved A s →
    (∀ e ∈ es, ∀ u sh c lk, e = Event.userShared u sh c lk →
      is_chat_member lk = true → A sh) →
    StateApproved A (runEvents s es) := by
  intro es
  induction es with
  | nil => intro s hs _; exact hs
  | cons e rest ih =>
    intro s hs hes
    simp only [runEvents]
    exact ih _ (stepEvent_approved A s e hs (hes e (by simp)))
      (fun e' he' => hes e' (by simp [he']))

/-! ### Claim theorems -/

/-- C3 counterexample: after assigning the task "first" (timestamp 10)
and then "second" (timestamp 20) to user 7, the open-task listing returns
them oldest-first ("first" before "second"), so the claimed newest-first
order does not hold. -/
theorem c3_counterexample :
    (get_active_tasks
        (add_task (add_task [] 7 "first" 1 100 10) 7 "second" 1 100 20) 7).map
      Task.text = ["first", "second"] ∧
    tsSortedDesc
      (get_active_tasks
        (add_task (add_task [] 7 "first" 1 100 10) 7 "second" 1 100 20) 7) = false := by
  decide

/-- C3 (amended): the open-task listing returns the open tasks of an
assignee in insertion order, a newly added task appearing LAST
(oldest-first; the stored rows carry no id to order by), and the listing
of an absent user is the empty list, a valid non-error result; a rendered
digest therefore also enumerates oldest-first. -/
theorem c3_list_order (users : Users) (a : Int) (txt : String)
    (b c ts : Int) (uid : Int) :
    get_active_tasks (add_task users a txt b c ts) a =
      get_active_tasks users a ++ [⟨txt, b, c, ts, false⟩] ∧
    get_active_tasks ([] : Users) uid = [] :=
  ⟨get_active_tasks_add_task_self users a txt b c ts, get_active_tasks_nil uid⟩

/-- C4: with a flow state carrying a selected assignee and a text that
trims non-empty, processing the task-text reply performs the add, and the
open-task listing of the assignee gains exactly one new entry whose text
is the trimmed input and whose done flag is false; the stored entry of
every other user is unchanged. -/
theorem c4_add_then_list (users : Users) (st : AssignState) (fromUser : Int)
    (mtext : String) (ts : Int) (chatOk : Bool) (fs : FlowState) (a : Int)
    (hst : st fromUser = some fs) (ha : fs.assignee_id = some a)
    (_hvalid : pyStrip mtext ≠ "") :
    get_active_tasks (on_task_text users st fromUser mtext ts chatOk).users a =
      get_active_tasks users a ++ [⟨pyStrip mtext, fromUser, fs.chat_id, ts, false⟩] ∧
    ∀ x, x ≠ a →
      lookupUser (on_task_text users st fromUser mtext ts chatOk).users x =
        lookupUser users x := by
  have husers : (on_task_text users st fromUser mtext ts chatOk).users =
      add_task users a (pyStrip mtext) fromUser fs.chat_id ts := by
    simp only [on_task_text, hst, ha]
    cases chatOk <;> rfl
  rw [husers]
  exact ⟨get_active_tasks_add_task_self users a (pyStrip mtext) fromUser fs.chat_id ts,
    fun x hx => lookupUser_add_task_other users (pyStrip mtext) fromUser fs.chat_id ts hx⟩

/-- C4 witness: assigner 1 assigns "ship" to assignee 2 from chat 100 at
timestamp 5; the listing of 2 gains exactly the entry and user 3 is
untouched. -/
theorem c4_witness :
    get_active_tasks
      (on_task_text [] (fun u => if u = 1 then some ⟨100, some 2⟩ else none)
        1 "ship" 5 true).users 2 =
      get_active_tasks ([] : Users) 2 ++ [⟨"ship", 1, 100, 5, false⟩] ∧
    lookupUser
      (on_task_text [] (fun u => if u = 1 then some ⟨100, some 2⟩ else none)
        1 "ship" 5 true).users 3 = lookupUser ([] : Users) 3 := by
  have h := c4_add_then_list [] (fun u => if u = 1 then some ⟨100, some 2⟩ else none)
    1 "ship" 5 true ⟨100, some 2⟩ 2 (by decide) rfl (by decide)
  exact ⟨h.1, h.2 3 (by decide)⟩

/-- C5: a reminder run whose weekday in the configured zone is Saturday
(5) or Sunday (6) attempts and delivers no digest whatever the store
holds, and the recurring trigger fires exactly on Monday through Friday
at 10:00 in that zone. -/
theorem c5_weekend_silent (dmOk : Int → Bool) (users : Users) (weekday : Nat)
    (hw : weekday = 5 ∨ weekday = 6) :
    send_daily_reminders dmOk users weekday = ([], []) ∧
    (∀ w h m : Nat, cronFires w h m = true ↔ w < 5 ∧ h = 10 ∧ m = 0) := by
  constructor
  · have h5 : 5 ≤ weekday := by rcases hw with h | h <;> omega
    simp [send_daily_reminders, h5]
  · intro w h m
    simp [cronFires, and_assoc]

/-- C5 witness: on Saturday (weekday 5), with user 7 holding an open
task, the run attempts and delivers nothing. -/
theorem c5_witness :
    send_daily_reminders (fun _ => true) [(7, [⟨"x", 1, 100, 10, false⟩])] 5 =
      ([], []) :=
  (c5_weekend_silent (fun _ => true) [(7, [⟨"x", 1, 100, 10, false⟩])] 5
    (Or.inl rfl)).1

/-- C7: mark_done returns true iff a row with the given id exists, open
or already done alike; when no such row exists it returns false and
leaves the store untouched; it is a total function, so a missing id is a
normal false outcome, never an exception. -/
theorem c7_mark_done (store : List SpecTask) (task_id : Nat) :
    ((mark_done store task_id).2 = true ↔ ∃ t ∈ store, t.id = task_id) ∧
    ((mark_done store task_id).2 = false →
      mark_done store task_id = (store, false)) := by
  have hany : store.any (fun t => t.id == task_id) = true ↔
      ∃ t ∈ store, t.id = task_id := by
    rw [List.any_eq_true]
    constructor
    · rintro ⟨t, ht, hid⟩; exact ⟨t, ht, by simpa using hid⟩
    · rintro ⟨t, ht, hid⟩; exact ⟨t, ht, by simpa using hid⟩
  unfold mark_done
  by_cases h : store.any (fun t => t.id == task_id)
  · rw [if_pos h]
    refine ⟨?_, fun hf => absurd hf (by simp)⟩
    simpa using hany.mp h
  · rw [if_neg h]
    refine ⟨?_, fun _ => rfl⟩
    constructor
    · intro hf; exact absurd hf (by simp)
    · intro hex; exact absurd (hany.mpr hex) h

/-- C7 witness: on a one-row store, a missing id 99 yields false with the
store unchanged, and the present id 1 yields true. -/
theorem c7_witness :
    mark_done [⟨1, 2, "x", false⟩] 99 = ([⟨1, 2, "x", false⟩], false) ∧
    (mark_done [⟨1, 2, "x", false⟩] 1).2 = true := by
  constructor
  · exact (c7_mark_done [⟨1, 2, "x", false⟩] 99).2 (by decide)
  · exact (c7_mark_done [⟨1, 2, "x", false⟩] 1).1.mpr ⟨⟨1, 2, "x", false⟩, by decide, rfl⟩

/-- C8 counterexample: the record inserted by add_task for a concrete
task carries no id field at all, so the persisted task does not carry a
store-assigned id. -/
theorem c8_counterexample :
    lookupKey (task_record ("ship") 1 100 10) "id" = none := by
  decide

/-- C8 (amended): every record persisted by add_task carries exactly the
fields text, by, chat, ts and done — in particular no id; the store
assigns no identifier to tasks, so no id uniqueness or monotonic
assignment is provided by it. -/
theorem c8_no_id (text : String) (by_user_id chat_id ts : Int) :
    lookupKey (task_record text by_user_id chat_id ts) "id" = none ∧
    (task_record text by_user_id chat_id ts).map Prod.fst =
      ["text", "by", "chat", "ts", "done"] :=
  ⟨rfl, rfl⟩

/-- C1 counterexample: assigner 1, assignee 2, task text "ship", DMs to 2
unreachable while DMs to 1 succeed: the success-path confirmation still
reaches the assigner (one message, not zero), falsifying the claimed zero
success-path confirmations; the handler has no failure-describing message
at all. -/
theorem c1_counterexample :
    dmSendsTo (dmDelivered (fun u => u != 2)
        (on_task_text [] (fun u => if u = 1 then some ⟨100, some 2⟩ else none)
          1 "ship" 5 true).sends) 1 =
      [Send.dm 1 (MsgKind.assignConfirm 2 "ship")] ∧
    ¬ (dmSendsTo (dmDelivered (fun u => u != 2)
        (on_task_text [] (fun u => if u = 1 then some ⟨100, some 2⟩ else none)
          1 "ship" 5 true).sends) 1 = []) ∧
    (fun u : Int => u != 2) 2 = false := by
  refine ⟨by decide, ?_, by decide⟩
  intro h
  rw [show dmSendsTo (dmDelivered (fun u => u != 2)
      (on_task_text [] (fun u => if u = 1 then some ⟨100, some 2⟩ else none)
        1 "ship" 5 true).sends) 1 =
      [Send.dm 1 (MsgKind.assignConfirm 2 "ship")] from by decide] at h
  exact List.noConfusion h

/-- C1 (amended): when the new-task notice cannot be delivered to the
assignee during assignment, the failure is swallowed: the handler sends
the assigner no failure-describing message of any kind, and the
success-path confirmation is still sent, reaching the assigner exactly
once whenever the assigner is reachable — irrespective of whether the
assignee was reachable. -/
theorem c1_unreachable_swallowed (users : Users) (st : AssignState)
    (fromUser : Int) (mtext : String) (ts : Int) (chatOk : Bool)
    (dmOk : Int → Bool) (fs : FlowState) (a : Int)
    (hst : st fromUser = some fs) (ha : fs.assignee_id = some a)
    (hne : fromUser ≠ a) :
    dmSendsTo (dmDelivered dmOk
        (on_task_text users st fromUser mtext ts chatOk).sends) fromUser =
      (if dmOk fromUser = true
       then [Send.dm fromUser (MsgKind.assignConfirm a (pyStrip mtext))]
       else []) := by
  have hsends : (on_task_text users st fromUser mtext ts chatOk).sends =
      [Send.dm a (.newTaskNotice (pyStrip mtext)),
       Send.dm fromUser (.assignConfirm a (pyStrip mtext))] ++
      (if chatOk then [Send.group fs.chat_id .ephemeralDone,
                       Send.group fs.chat_id .keyboardRemove]
       else [Send.group fs.chat_id .ephemeralDone]) := by
    simp only [on_task_text, hst, ha]
    cases chatOk <;> rfl
  have hane : (a == fromUser) = false := by
    rw [beq_eq_false_iff_ne]
    exact fun he => hne he.symm
  rw [hsends]
  cases hda : dmOk a <;> cases hdf : dmOk fromUser <;> cases chatOk <;>
    simp [dmDelivered, dmSendsTo, List.filter_append, hda, hdf, hane]

/-- C1 witness: at the concrete input of the counterexample scenario the
delivered assigner-directed messages are exactly one confirmation. -/
theorem c1_witness :
    dmSendsTo (dmDelivered (fun u => u == 1)
        (on_task_text [] (fun u => if u = 1 then some ⟨100, some 2⟩ else none)
          1 "ship" 5 true).sends) 1 =
      [Send.dm 1 (MsgKind.assignConfirm 2 (pyStrip ("ship")))] := by
  have h := c1_unreachable_swallowed []
    (fun u => if u = 1 then some ⟨100, some 2⟩ else none) 1 "ship" 5 true
    (fun u => u == 1) ⟨100, some 2⟩ 2 (by decide) rfl (by decide)
  rw [h]
  decide

/-- C2 counterexample: a task-text reply of a single space trims to the
empty string, yet the task IS inserted (with empty text) and the normal
success confirmation is sent to the requester rather than a corrective
message: creation does not fail with InvalidInput, and a stored task with
empty trimmed text exists. -/
theorem c2_counterexample :
    (on_task_text [] (fun u => if u = 1 then some ⟨100, some 2⟩ else none)
        1 " " 5 true).users = [(2, [⟨"", 1, 100, 5, false⟩])] ∧
    (on_task_text [] (fun u => if u = 1 then some ⟨100, some 2⟩ else none)
        1 " " 5 true).sends =
      [Send.dm 2 (MsgKind.newTaskNotice ("")),
       Send.dm 1 (MsgKind.assignConfirm 2 ""),
       Send.group 100 MsgKind.ephemeralDone,
       Send.group 100 MsgKind.keyboardRemove] := by
  constructor <;> decide

/-- C2 (amended): an assign event whose task text trims to the empty
string is not rejected: there is no InvalidInput outcome, the task is
inserted with empty text into the list of the assignee, and the requester is
sent the normal success confirmation rather than a corrective message;
stored tasks may therefore have empty trimmed text. -/
theorem c2_empty_text_inserted (users : Users) (st : AssignState)
    (fromUser : Int) (mtext : String) (ts : Int) (chatOk : Bool)
    (fs : FlowState) (a : Int)
    (hst : st fromUser = some fs) (ha : fs.assignee_id = some a)
    (hempty : pyStrip mtext = "") :
    get_active_tasks (on_task_text users st fromUser mtext ts chatOk).users a =
      get_active_tasks users a ++ [⟨"", fromUser, fs.chat_id, ts, false⟩] ∧
    Send.dm fromUser (MsgKind.assignConfirm a ("")) ∈
      (on_task_text users st fromUser mtext ts chatOk).sends := by
  have husers : (on_task_text users st fromUser mtext ts chatOk).users =
      add_task users a (pyStrip mtext) fromUser fs.chat_id ts := by
    simp only [on_task_text, hst, ha]
    cases chatOk <;> rfl
  have hsends : (on_task_text users st fromUser mtext ts chatOk).sends =
      [Send.dm a (.newTaskNotice (pyStrip mtext)),
       Send.dm fromUser (.assignConfirm a (pyStrip mtext))] ++
      (if chatOk then [Send.group fs.chat_id .ephemeralDone,
                       Send.group fs.chat_id .keyboardRemove]
       else [Send.group fs.chat_id .ephemeralDone]) := by
    simp only [on_task_text, hst, ha]
    cases chatOk <;> rfl
  constructor
  · rw [husers, get_active_tasks_add_task_self users a (pyStrip mtext)
      fromUser fs.chat_id ts, hempty]
  · rw [hsends, hempty]
    simp

/-- C2 witness: the single-space reply at the concrete input inserts the
empty-text task and the confirmation is among the attempted sends. -/
theorem c2_witness :
    get_active_tasks
      (on_task_text [] (fun u => if u = 1 then some ⟨100, some 2⟩ else none)
        1 " " 5 true).users 2 =
      get_active_tasks ([] : Users) 2 ++ [⟨"", 1, 100, 5, false⟩] ∧
    Send.dm 1 (MsgKind.assignConfirm 2 "") ∈
      (on_task_text [] (fun u => if u = 1 then some ⟨100, some 2⟩ else none)
        1 " " 5 true).sends :=
  c2_empty_text_inserted [] (fun u => if u = 1 then some ⟨100, some 2⟩ else none)
    1 " " 5 true ⟨100, some 2⟩ 2 (by decide) rfl (by decide)

/-- C6: on a weekday run, for every user id the number of attempted
digest sends is one exactly when that user has a store entry with at
least one open task and zero otherwise (a user whose tasks are all closed
gets no message); each attempted digest carries exactly the open-task
texts of its user, in stored order; the attempted sends do not depend on
the deliverability oracle (a failed delivery is swallowed and the loop
continues with the remaining users); and the delivered digests are
exactly the attempted ones whose target is reachable. -/
theorem c6_weekday_digests (dmOk : Int → Bool) (users : Users)
    (weekday : Nat) (hw : weekday < 5)
    (hnd : (users.map Prod.fst).Nodup) :
    (∀ uid : Int,
      ((send_daily_reminders dmOk users weekday).1.map Prod.fst).count uid =
        if uid ∈ users.map Prod.fst ∧ get_active_tasks users uid ≠ []
        then 1 else 0) ∧
    (∀ p ∈ (send_daily_reminders dmOk users weekday).1,
      p.2 = (get_active_tasks users p.1).map Task.text ∧
        get_active_tasks users p.1 ≠ []) ∧
    (∀ dmOk' : Int → Bool,
      (send_daily_reminders dmOk users weekday).1 =
        (send_daily_reminders dmOk' users weekday).1) ∧
    ((send_daily_reminders dmOk users weekday).2 =
      (send_daily_reminders dmOk users weekday).1.filter
        (fun p => dmOk p.1)) := by
  have hw5 : ¬ 5 ≤ weekday := by omega
  have hsdr : ∀ dk : Int → Bool,
      send_daily_reminders dk users weekday =
        reminderLoop dk users (users.map Prod.fst) := by
    intro dk
    simp [send_daily_reminders, hw5]
  refine ⟨?_, ?_, ?_, ?_⟩
  · intro uid
    rw [hsdr, reminderLoop_fst, filterMap_digestOf_keys]
    have hndf : ((users.map Prod.fst).filter
        (fun uid => !(get_active_tasks users uid).isEmpty)).Nodup :=
      hnd.filter _
    rw [count_nodup _ _ hndf]
    by_cases hm : uid ∈ users.map Prod.fst ∧ get_active_tasks users uid ≠ []
    · rw [if_pos (List.mem_filter.mpr
        ⟨hm.1, by simp [List.isEmpty_iff, hm.2]⟩), if_pos hm]
    · rw [if_neg ?_, if_neg hm]
      intro hmem
      rw [List.mem_filter] at hmem
      exact hm ⟨hmem.1, by simpa [List.isEmpty_iff] using hmem.2⟩
  · intro p hp
    rw [hsdr, reminderLoop_fst] at hp
    exact mem_filterMap_digestOf hp
  · intro dmOk'
    rw [hsdr, hsdr, reminderLoop_fst, reminderLoop_fst]
  · rw [hsdr, reminderLoop_snd, reminderLoop_fst]

/-- C6 witness: on a Tuesday (weekday 1), with user 2 holding one open
task and user 3 only a closed task, exactly one digest is attempted for
user 2, none for user 3, and the digest for 2 carries exactly the open
text. -/
theorem c6_witness :
    ((send_daily_reminders (fun _ => true)
        [(2, [⟨"a", 1, 100, 10, false⟩]), (3, [⟨"b", 1, 100, 11, true⟩])]
        1).1.map Prod.fst).count 2 = 1 ∧
    ((send_daily_reminders (fun _ => true)
        [(2, [⟨"a", 1, 100, 10, false⟩]), (3, [⟨"b", 1, 100, 11, true⟩])]
        1).1.map Prod.fst).count 3 = 0 := by
  have h := c6_weekday_digests (fun _ => true)
    [(2, [⟨"a", 1, 100, 10, false⟩]), (3, [⟨"b", 1, 100, 11, true⟩])]
    1 (by decide) (by decide)
  constructor
  · rw [h.1 2]; decide
  · rw [h.1 3]; decide

/-- C9: the membership check fails closed on any exception from the
chat-member lookup; a selection arriving while the check fails leaves the
store and the flow state untouched and DMs the assigner a rejection; and
over any event trace from the initial state, a store entry (hence any
task) exists for an assignee only if some selection of that assignee
passed the membership check somewhere in the trace. -/
theorem c9_membership_gate (users : Users) (st : AssignState)
    (fromUser sharedUser eventChat : Int) (fs : FlowState)
    (es : List Event) (a : Int) (l : List Task)
    (hst : st fromUser = some fs)
    (hlk : lookupUser (runEvents initState es).users a = some l) :
    is_chat_member (Except.error ()) = false ∧
    on_user_shared users st fromUser sharedUser eventChat (Except.error ()) =
      ⟨users, st, [Send.dm fromUser .memberRejection]⟩ ∧
    approvedInTrace es a := by
  refine ⟨rfl, ?_, ?_⟩
  · simp only [on_user_shared, hst]
    rfl
  · have hinit : StateApproved (approvedInTrace es) initState := by
      constructor
      · intro u fs' a' h _
        exact Option.noConfusion h
      · intro a' l' h
        exact Option.noConfusion h
    have hes : ∀ e ∈ es, ∀ u sh c lk, e = Event.userShared u sh c lk →
        is_chat_member lk = true → approvedInTrace es sh := by
      intro e he u sh c lk heq hc
      exact ⟨u, c, lk, heq ▸ he, hc⟩
    exact (runEvents_approved (approvedInTrace es) es initState hinit hes).2
      a l hlk

/-- C9 witness: in the trace where user 1 opens the assign flow for chat
100, selects user 2 (who passes the membership check with status member)
and replies with the text, the store holds an entry for 2 and the theorem
yields the approval of 2 inside the trace; fail-closed is instantiated at
the error lookup. -/
theorem c9_witness :
    is_chat_member (Except.error ()) = false ∧
    approvedInTrace
      [Event.assignClick 1 100,
       Event.userShared 1 2 100 (Except.ok MemberStatus.member),
       Event.taskText 1 "ship" 5 true] 2 := by
  have h := c9_membership_gate []
    (fun u => if u = 1 then some ⟨100, some 2⟩ else none) 1 2 100 ⟨100, some 2⟩
    [Event.assignClick 1 100,
     Event.userShared 1 2 100 (Except.ok MemberStatus.member),
     Event.taskText 1 "ship" 5 true] 2 [⟨"ship", 1, 100, 5, false⟩]
    (by decide) (by decide)
  exact ⟨h.1, h.2.2⟩

/-- C10 counterexample: the ephemeral group confirmation of line 381 is
not wrapped in try/except; when it raises, the handler aborts before the
ASSIGN_STATE.pop of line 400, so although the task was successfully
created, the flow state of assigner 1 survives with assignee 2 still
selected, and a subsequent reply (with no new flow started) creates a
second task. -/
theorem c10_counterexample :
    (on_task_text [] (fun u => if u = 1 then some ⟨100, some 2⟩ else none)
        1 "first" 10 false).users = [(2, [⟨"first", 1, 100, 10, false⟩])] ∧
    (on_task_text [] (fun u => if u = 1 then some ⟨100, some 2⟩ else none)
        1 "first" 10 false).assign 1 = some ⟨100, some 2⟩ ∧
    (get_active_tasks
      (on_task_text
        (on_task_text [] (fun u => if u = 1 then some ⟨100, some 2⟩ else none)
          1 "first" 10 false).users
        (on_task_text [] (fun u => if u = 1 then some ⟨100, some 2⟩ else none)
          1 "first" 10 false).assign
        1 "second" 20 true).users 2).length = 2 := by
  refine ⟨by decide, by decide, by decide⟩

/-- C10 (amended): provided the unprotected group confirmation send does
not raise, the flow state of the assigner is removed once the task is
created, and a subsequent task-text reply by that user changes neither
the store nor the state and sends nothing; a reply from a user with no
flow state, or whose flow has no selected assignee, likewise changes
nothing.  When that send raises, the pop is skipped and the state
survives (see the counterexample). -/
theorem c10_state_cleared (users : Users) (st : AssignState) (fromUser : Int)
    (mtext mtext2 : String) (ts ts2 : Int) (ok2 : Bool)
    (fs : FlowState) (a : Int)
    (hst : st fromUser = some fs) (ha : fs.assignee_id = some a) :
    ((on_task_text users st fromUser mtext ts true).assign fromUser = none) ∧
    (on_task_text (on_task_text users st fromUser mtext ts true).users
        (on_task_text users st fromUser mtext ts true).assign
        fromUser mtext2 ts2 ok2 =
      ⟨(on_task_text users st fromUser mtext ts true).users,
       (on_task_text users st fromUser mtext ts true).assign, []⟩) ∧
    (∀ (users' : Users) (st' : AssignState) (u : Int), st' u = none →
      on_task_text users' st' u mtext2 ts2 ok2 = ⟨users', st', []⟩) ∧
    (∀ (users' : Users) (st' : AssignState) (u : Int) (fs' : FlowState),
      st' u = some fs' → fs'.assignee_id = none →
      on_task_text users' st' u mtext2 ts2 ok2 = ⟨users', st', []⟩) := by
  have hnone : ∀ (users' : Users) (st' : AssignState) (u : Int),
      st' u = none →
      on_task_text users' st' u mtext2 ts2 ok2 = ⟨users', st', []⟩ := by
    intro users' st' u h
    simp only [on_task_text, h]
  have hpop : (on_task_text users st fromUser mtext ts true).assign fromUser =
      none := by
    simp only [on_task_text, hst, ha, if_true]
  refine ⟨hpop, hnone _ _ _ hpop, hnone, ?_⟩
  intro users' st' u fs' h hfa
  simp only [on_task_text, h, hfa]

/-- C10 witness: at the concrete input, after assigning "ship" the state
of user 1 is cleared and the follow-up reply "again" changes nothing. -/
theorem c10_witness :
    (on_task_text [] (fun u => if u = 1 then some ⟨100, some 2⟩ else none)
        1 "ship" 5 true).assign 1 = none ∧
    on_task_text
      (on_task_text [] (fun u => if u = 1 then some ⟨100, some 2⟩ else none)
        1 "ship" 5 true).users
      (on_task_text [] (fun u => if u = 1 then some ⟨100, some 2⟩ else none)
        1 "ship" 5 true).assign 1 "again" 6 true =
      ⟨(on_task_text [] (fun u => if u = 1 then some ⟨100, some 2⟩ else none)
          1 "ship" 5 true).users,
       (on_task_text [] (fun u => if u = 1 then some ⟨100, some 2⟩ else none)
          1 "ship" 5 true).assign, []⟩ := by
  have h := c10_state_cleared []
    (fun u => if u = 1 then some ⟨100, some 2⟩ else none)
    1 "ship" "again" 5 6 true ⟨100, some 2⟩ 2 (by decide) rfl
  exact ⟨h.1, h.2.1⟩

end USSBot
